import Mathlib

/-!
Verification development for the QWen forward-pass core
(paddlenlp/transformers/qwen/modeling_network.py and
paddlenlp/transformers/llama/fusion_ops.py).

Tensors are embedded as total functions from (nat) indices to exact
rationals or reals; shapes become explicit dimension parameters and
bounded quantifiers.  Broadcasting over a singleton axis is embedded by
indexing that axis at 0.  Mutable module state (rotary caches, the NTK
memo) is embedded as explicit state passing.  Floating-point arithmetic
is modelled by exact rational/real arithmetic.
-/

/-! ## rotate_half and apply_rotary_pos_emb (modeling_network.py) -/

/-- Embedding of `rotate_half` (modeling_network.py): split the last axis
of length `d` as `x1 = x[..., : d // 2]`, `x2 = x[..., d // 2 :]` and
return `concat([-x2, x1], axis=-1)`.  The result has `d - d / 2` leading
entries taken (negated) from `x2` and the remaining entries from `x1`. -/
def rotate_half (d : Nat) (x : Nat → ℚ) : Nat → ℚ :=
  fun j => if j < d - d / 2 then -x (d / 2 + j) else x (j - (d - d / 2))

/-- A rank-4 tensor over exact rationals, indexed batch, sequence, head,
last-dimension. -/
abbrev T4 : Type := Nat → Nat → Nat → Nat → ℚ

/-- Embedding of `apply_rotary_pos_emb` (modeling_network.py).  The
`cos`/`sin` tables arrive shaped `[1, P, 1, d]`; the singleton batch and
head axes are embedded by indexing them at 0 (which is also what
broadcasting against `q`/`k` does).  With `position_ids=None` the tables
are sliced to the first `q.shape[1]` positions (values unchanged); with
explicit `position_ids` the tables are squeezed, gathered at
`position_ids[b][s]`, and a head axis is reinserted.  Both `q` and `k`
are then rotated as `x * cos + rotate_half(x) * sin`. -/
def apply_rotary_pos_emb (d : Nat) (q k cos sin : T4)
    (position_ids : Option (Nat → Nat → Nat)) : T4 × T4 :=
  let cosU : T4 := match position_ids with
    | none => fun _ s _ j => cos 0 s 0 j
    | some pos => fun b s _ j => cos 0 (pos b s) 0 j
  let sinU : T4 := match position_ids with
    | none => fun _ s _ j => sin 0 s 0 j
    | some pos => fun b s _ j => sin 0 (pos b s) 0 j
  (fun b s h j => q b s h j * cosU b s h j + rotate_half d (q b s h) j * sinU b s h j,
   fun b s h j => k b s h j * cosU b s h j + rotate_half d (k b s h) j * sinU b s h j)

/-- C7: for every tensor slice `x` whose last dimension `d` is even and
every in-range index `j < d`, `rotate_half (rotate_half x) j = -x j`. -/
theorem rotate_half_rotate_half_eq_neg (d : Nat) (x : Nat → ℚ)
    (hd : d % 2 = 0) (j : Nat) (hj : j < d) :
    rotate_half d (rotate_half d x) j = -x j := by
  rcases Nat.lt_or_ge j (d / 2) with h | h
  · have h1 : j < d - d / 2 := by omega
    have h2 : ¬ (d / 2 + j < d - d / 2) := by omega
    have h3 : d / 2 + j - (d - d / 2) = j := by omega
    simp only [rotate_half, if_pos h1, if_neg h2, h3]
  · have h1 : ¬ (j < d - d / 2) := by omega
    have h2 : j - (d - d / 2) < d - d / 2 := by omega
    have h3 : d / 2 + (j - (d - d / 2)) = j := by omega
    simp only [rotate_half, if_neg h1, if_pos h2, h3]

/-- C7 witness: concrete instance at `d = 4`, `x j = j + 1`, `j = 3`. -/
theorem rotate_half_rotate_half_eq_neg_witness :
    (4 : Nat) % 2 = 0 ∧ (3 : Nat) < 4 ∧
      rotate_half 4 (rotate_half 4 (fun j => (j : ℚ) + 1)) 3 = -((fun j => (j : ℚ) + 1) 3) :=
  ⟨by decide, by decide,
    rotate_half_rotate_half_eq_neg 4 (fun j => (j : ℚ) + 1) (by decide) 3 (by decide)⟩

/-- C6: with cos/sin tables having singleton batch and head axes, the
no-position-id path of `apply_rotary_pos_emb` and the explicit-position-id
path with `position_ids[b] = [0..L-1]` produce exactly equal rotated `q`
and `k` at every in-range index. -/
theorem apply_rotary_pos_emb_paths_agree (d B L H : Nat) (q k cos sin : T4)
    (pos : Nat → Nat → Nat) (hpos : ∀ b s, b < B → s < L → pos b s = s) :
    ∀ b s h j, b < B → s < L → h < H → j < d →
      (apply_rotary_pos_emb d q k cos sin (some pos)).1 b s h j
          = (apply_rotary_pos_emb d q k cos sin none).1 b s h j ∧
      (apply_rotary_pos_emb d q k cos sin (some pos)).2 b s h j
          = (apply_rotary_pos_emb d q k cos sin none).2 b s h j := by
  intro b s h j hb hs _ _
  constructor <;> simp only [apply_rotary_pos_emb, hpos b s hb hs]

/-- C6 witness: concrete instance at `d = 2`, `B = 1`, `L = 2`, `H = 1`
with sequential position ids. -/
theorem apply_rotary_pos_emb_paths_agree_witness :
    (∀ b s, b < 1 → s < 2 → (fun (_ s' : Nat) => s') b s = s) ∧
    (∀ b s h j, b < 1 → s < 2 → h < 1 → j < 2 →
      (apply_rotary_pos_emb 2 (fun _ _ _ j => (j : ℚ)) (fun _ _ _ j => (j : ℚ) + 1)
          (fun _ s _ j => (s : ℚ) + (j : ℚ)) (fun _ s _ j => (s : ℚ) * (j : ℚ))
          (some (fun _ s' => s'))).1 b s h j
        = (apply_rotary_pos_emb 2 (fun _ _ _ j => (j : ℚ)) (fun _ _ _ j => (j : ℚ) + 1)
          (fun _ s _ j => (s : ℚ) + (j : ℚ)) (fun _ s _ j => (s : ℚ) * (j : ℚ))
          none).1 b s h j ∧
      (apply_rotary_pos_emb 2 (fun _ _ _ j => (j : ℚ)) (fun _ _ _ j => (j : ℚ) + 1)
          (fun _ s _ j => (s : ℚ) + (j : ℚ)) (fun _ s _ j => (s : ℚ) * (j : ℚ))
          (some (fun _ s' => s'))).2 b s h j
        = (apply_rotary_pos_emb 2 (fun _ _ _ j => (j : ℚ)) (fun _ _ _ j => (j : ℚ) + 1)
          (fun _ s _ j => (s : ℚ) + (j : ℚ)) (fun _ s _ j => (s : ℚ) * (j : ℚ))
          none).2 b s h j) :=
  ⟨fun _ _ _ _ => rfl,
    apply_rotary_pos_emb_paths_agree 2 1 2 1 _ _ _ _ _ (fun _ _ _ _ => rfl)⟩

/-! ## Attention causal-flag selection (modeling_network.py _attn, fusion_ops.py) -/

/-- Embedding of the causal flag on the default scaled-dot-product branch of
`fusion_flash_attention` (fusion_ops.py, `is_causal=query_states.shape[1] != 1`). -/
def fusion_default_is_causal (q_len : Nat) : Bool := q_len != 1

/-- Embedding of the causal flag chosen by the flash branch of
`QWenAttentionNet._attn` (modeling_network.py): for paddle versions at most
2.5.2 it calls `flash_attention` with `causal=query.shape[1] != 1`; for newer
versions it calls `scaled_dot_product_attention` with
`is_causal=attention_mask is None`. -/
def qwen_attn_flash_is_causal (version_le_2_5_2 : Bool) (q_len : Nat)
    (attention_mask_is_none : Bool) : Bool :=
  if version_le_2_5_2 then q_len != 1 else attention_mask_is_none

/-- Embedding of `get_triangle_upper_mask` (modeling_network.py), used by the
manual fallback branch of `_attn` when no mask is supplied: entry (i, j) of
the constructed additive mask holds the dtype minimum (blocking position j for
query row i) exactly when j is at least i + 1, and 0 otherwise. -/
def triangle_upper_mask_blocks (i j : Nat) : Bool := decide (i + 1 ≤ j)

/-- C2 counterexample: on the qwen flash branch under a paddle version newer
than 2.5.2, a single-token call (query length 1) with no attention mask sets
the causal flag, contradicting the claim that the default path is causal
exactly when the query length is greater than 1. -/
theorem qwen_attn_flash_causal_counterexample :
    qwen_attn_flash_is_causal false 1 true = true ∧ ¬ (1 < 1) := by decide

/-- C2 amended: the fusion-ops default scaled-dot-product branch is causal
exactly when the query length exceeds 1, and so is the qwen flash branch for
paddle versions at most 2.5.2; but for newer versions the qwen branch sets
the causal flag exactly when no attention mask is supplied, and the manual
fallback with no mask always builds a strict upper-triangular blocking mask
(causal for multi-token calls, but blocking all cached history beyond
position i for query row i even in a single-token call). -/
theorem default_attention_causal_selection (q_len : Nat) (hq : 1 ≤ q_len) :
    (fusion_default_is_causal q_len = decide (1 < q_len)) ∧
    (∀ mask_is_none, qwen_attn_flash_is_causal true q_len mask_is_none = decide (1 < q_len)) ∧
    (∀ mask_is_none, qwen_attn_flash_is_causal false q_len mask_is_none = mask_is_none) ∧
    (∀ i j, triangle_upper_mask_blocks i j = decide (i < j)) := by
  refine ⟨?_, fun _ => ?_, fun _ => rfl,
    fun i j => by simp [triangle_upper_mask_blocks, Nat.lt_iff_add_one_le]⟩ <;>
    · simp only [fusion_default_is_causal, qwen_attn_flash_is_causal, if_pos]
      cases Nat.lt_or_ge 1 q_len with
      | inl h => simp [Nat.ne_of_gt h, h]
      | inr h =>
        have : q_len = 1 := by omega
        subst this
        decide

/-- C2 amended witness: concrete instance at query length 3. -/
theorem default_attention_causal_selection_witness :
    1 ≤ 3 ∧
    ((fusion_default_is_causal 3 = decide (1 < 3)) ∧
     (∀ mask_is_none, qwen_attn_flash_is_causal true 3 mask_is_none = decide (1 < 3)) ∧
     (∀ mask_is_none, qwen_attn_flash_is_causal false 3 mask_is_none = mask_is_none) ∧
     (∀ i j, triangle_upper_mask_blocks i j = decide (i < j))) :=
  ⟨by decide, default_attention_causal_selection 3 (by decide)⟩

/-! ## QWenModelNet.forward control: recompute vs use_cache (C9) -/

/-- Modelled from the spec: `logger.warning_once` (paddlenlp/utils/log.py, a
file of this repository not under src/) emits a given warning only the first
time it is reached; the spec calls this "a one-time warning".  Input: whether
the warning was already emitted; output: the new flag and how many messages
are emitted now. -/
def warning_once (already_warned : Bool) : Bool × Nat :=
  (true, if already_warned then 0 else 1)

/-- Embedding of the input validation and cache/recompute control flow of
`QWenModelNet.forward` (modeling_network.py): raises on both-or-neither of
input_ids/inputs_embeds; when recompute is enabled in training mode and
`use_cache` is requested, warns once and disables caching; otherwise keeps
`use_cache`.  Returns the per-layer cache (`presents`, one entry per block
when caching), the number of warnings emitted, and the new logger state. -/
def qwen_model_forward_control (has_input_ids has_inputs_embeds enable_recompute
    training use_cache : Bool) (n_layers : Nat) (already_warned : Bool) :
    Except String (Option (List Unit) × Nat × Bool) :=
  if has_input_ids && has_inputs_embeds then
    Except.error "You cannot specify both input_ids and inputs_embeds at the same time"
  else if !has_input_ids && !has_inputs_embeds then
    Except.error "You have to specify either input_ids or inputs_embeds"
  else
    let wc : Bool × Nat × Bool :=
      if enable_recompute && training then
        if use_cache then
          let w := warning_once already_warned
          (false, w.2, w.1)
        else (use_cache, 0, already_warned)
      else (use_cache, 0, already_warned)
    Except.ok (if wc.1 then some (List.replicate n_layers ()) else none, wc.2.1, wc.2.2)

/-- One forward call's parameters: input_ids?, inputs_embeds?, recompute,
training, use_cache, layer count. -/
abbrev ForwardCall : Type := Bool × Bool × Bool × Bool × Bool × Nat

/-- Warning count and new logger state produced by one `QWenModelNet.forward`
call (a raising call emits nothing and leaves the logger unchanged). -/
def forward_call_step (c : ForwardCall) (warned : Bool) : Nat × Bool :=
  match qwen_model_forward_control c.1 c.2.1 c.2.2.1 c.2.2.2.1 c.2.2.2.2.1 c.2.2.2.2.2 warned with
  | Except.error _ => (0, warned)
  | Except.ok (_, w, warned') => (w, warned')

/-- Threads the logger state through a sequence of `QWenModelNet.forward`
calls, summing the emitted recompute/use_cache warnings. -/
def run_forward_calls : List ForwardCall → Bool → Nat × Bool
  | [], warned => (0, warned)
  | c :: rest, warned =>
      let s := forward_call_step c warned
      let r := run_forward_calls rest s.2
      (s.1 + r.1, r.2)

lemma forward_call_step_true (c : ForwardCall) : forward_call_step c true = (0, true) := by
  obtain ⟨a, b, er, tr, uc, n⟩ := c
  rcases a <;> rcases b <;> rcases er <;> rcases tr <;> rcases uc <;>
    simp [forward_call_step, qwen_model_forward_control, warning_once]

lemma forward_call_step_false (c : ForwardCall) :
    forward_call_step c false = (0, false) ∨ forward_call_step c false = (1, true) := by
  obtain ⟨a, b, er, tr, uc, n⟩ := c
  rcases a <;> rcases b <;> rcases er <;> rcases tr <;> rcases uc <;>
    simp [forward_call_step, qwen_model_forward_control, warning_once]

lemma run_forward_calls_true (calls : List ForwardCall) :
    run_forward_calls calls true = (0, true) := by
  induction calls with
  | nil => rfl
  | cons c rest ih => simp [run_forward_calls, forward_call_step_true, ih]

lemma run_forward_calls_false_le (calls : List ForwardCall) :
    (run_forward_calls calls false).1 ≤ 1 := by
  induction calls with
  | nil => simp [run_forward_calls]
  | cons c rest ih =>
    rcases forward_call_step_false c with h | h <;>
      simp [run_forward_calls, h, run_forward_calls_true, ih]

/-- C9: with valid inputs, a model forward in training mode with recompute
enabled and `use_cache=True` does not fail: it returns successfully with no
key/value cache (`presents = None`), and across any sequence of forward calls
starting from a fresh logger at most one warning is ever emitted. -/
theorem qwen_recompute_use_cache_downgrade (has_input_ids has_inputs_embeds : Bool)
    (n_layers : Nat) (warned : Bool) (hvalid : has_input_ids ≠ has_inputs_embeds) :
    (qwen_model_forward_control has_input_ids has_inputs_embeds true true true n_layers warned
        = Except.ok (none, if warned then 0 else 1, true)) ∧
    (if warned then 0 else 1) ≤ 1 ∧
    (∀ calls : List ForwardCall, (run_forward_calls calls false).1 ≤ 1) := by
  refine ⟨?_, by split <;> omega, fun calls => run_forward_calls_false_le calls⟩
  rcases has_input_ids <;> rcases has_inputs_embeds <;>
    simp_all [qwen_model_forward_control, warning_once]

/-- C9 witness: concrete instance with input_ids only, two layers, fresh
logger. -/
theorem qwen_recompute_use_cache_downgrade_witness :
    true ≠ false ∧
    ((qwen_model_forward_control true false true true true 2 false
        = Except.ok (none, if false then 0 else 1, true)) ∧
     (if false then 0 else 1) ≤ 1 ∧
     (∀ calls : List ForwardCall, (run_forward_calls calls false).1 ≤ 1)) :=
  ⟨by decide, qwen_recompute_use_cache_downgrade true false 2 false (by decide)⟩

/-! ## QWenForCausalLMNet.forward and the LM head (C10) -/

/-- Embedding of `QWenLMHeadNet.forward` (modeling_network.py): the logits
are `matmul(hidden_states, weight)`; the `tensor_parallel_output` argument is
accepted (defaulting from the config) but does not change the computation. -/
def QWenLMHeadNet_forward (hidden_size : Nat) (weight : Nat → Nat → ℚ)
    (hidden_states : Nat → Nat → ℚ) (_tp_output_flag : Bool) : Nat → Nat → ℚ :=
  fun t v => ∑ c ∈ Finset.range hidden_size, hidden_states t c * weight c v

/-- Embedding of the `tensor_parallel_output` expression computed by
`QWenForCausalLMNet.forward` (modeling_network.py): the config flag AND
`labels is not None` AND `tensor_parallel_degree > 1`. -/
def causal_lm_tp_output_flag (config_tp_output : Bool) (tensor_parallel_degree : Nat)
    (labels : Option (List Int)) : Bool :=
  config_tp_output && labels.isSome && decide (1 < tensor_parallel_degree)

/-- Embedding of `QWenForCausalLMNet.forward` (modeling_network.py): it runs
the base model (whose hidden states, for fixed non-label inputs, are the
parameter `qwen_hidden_states`), computes the `tensor_parallel_output` flag
from `labels`, and returns the LM head logits — nothing else. -/
def QWenForCausalLMNet_forward (hidden_size : Nat) (lm_head_weight : Nat → Nat → ℚ)
    (qwen_hidden_states : Nat → Nat → ℚ) (config_tp_output : Bool)
    (tensor_parallel_degree : Nat) (labels : Option (List Int)) : Nat → Nat → ℚ :=
  QWenLMHeadNet_forward hidden_size lm_head_weight qwen_hidden_states
    (causal_lm_tp_output_flag config_tp_output tensor_parallel_degree labels)

/-- C10: the causal-LM wrapper's forward returns only the logits tensor
`matmul(hidden_states, lm_head_weight)` and never a loss; the `labels`
argument never changes the returned value, and its only use is in the
tensor-parallel output flag passed to the LM head, which equals
`config.tensor_parallel_output AND labels is not None AND
config.tensor_parallel_degree > 1`. -/
theorem causal_lm_forward_returns_only_logits (hidden_size : Nat)
    (lm_head_weight qwen_hidden_states : Nat → Nat → ℚ)
    (config_tp_output : Bool) (tensor_parallel_degree : Nat) :
    (∀ labels, QWenForCausalLMNet_forward hidden_size lm_head_weight qwen_hidden_states
        config_tp_output tensor_parallel_degree labels
      = fun t v => ∑ c ∈ Finset.range hidden_size, qwen_hidden_states t c * lm_head_weight c v) ∧
    (∀ labels1 labels2,
      QWenForCausalLMNet_forward hidden_size lm_head_weight qwen_hidden_states
          config_tp_output tensor_parallel_degree labels1
        = QWenForCausalLMNet_forward hidden_size lm_head_weight qwen_hidden_states
          config_tp_output tensor_parallel_degree labels2) ∧
    (∀ labels, causal_lm_tp_output_flag config_tp_output tensor_parallel_degree labels
      = (config_tp_output && labels.isSome && decide (1 < tensor_parallel_degree))) :=
  ⟨fun _ => rfl, fun _ _ => rfl, fun _ => rfl⟩

/-! ## QWenPretrainingCriterionNet.forward (C4) -/

/-- Embedding of `paddle.nn.CrossEntropyLoss(reduction="none", ignore_index=i)`
as used by `QWenPretrainingCriterionNet.forward` (modeling_network.py): the
library op returns, per position, loss 0 where the label equals the ignore
index and otherwise the cross-entropy of that position's scores at its label;
the pointwise cross-entropy itself is abstracted as the parameter `ce`. -/
def cross_entropy_loss_none (ce : (Nat → ℚ) → Int → ℚ) (ignore_index : Int)
    (prediction_scores : Nat → Nat → ℚ) (labels : Nat → Int) (n_tokens : Nat) : List ℚ :=
  (List.range n_tokens).map
    (fun t => if labels t = ignore_index then 0 else ce (prediction_scores t) (labels t))

/-- Embedding of `paddle.mean` over a 1-D tensor: sum divided by element
count; on an empty tensor the 0/0 division produces a float NaN, embedded
here as `none`. -/
def paddle_mean (xs : List ℚ) : Option ℚ :=
  if xs.isEmpty then none else some (xs.sum / xs.length)

/-- Embedding of `QWenPretrainingCriterionNet.forward` (modeling_network.py):
per-position losses with `reduction="none"` and the configured ignore index,
then `paddle.masked_select(loss, loss > 0)`, then `paddle.mean` of the
selection. -/
def QWenPretrainingCriterionNet_forward (ce : (Nat → ℚ) → Int → ℚ) (ignore_index : Int)
    (prediction_scores : Nat → Nat → ℚ) (masked_lm_labels : Nat → Int) (n_tokens : Nat) :
    Option ℚ :=
  let masked_lm_loss :=
    cross_entropy_loss_none ce ignore_index prediction_scores masked_lm_labels n_tokens
  let selected := masked_lm_loss.filter (fun v => decide (0 < v))
  paddle_mean selected

/-- C4: evaluation of the criterion at the failing input — two positions,
both labels equal to the ignore index -100 — yields `none` (the embedded
NaN): the selection `loss > 0` is empty and `paddle.mean` of an empty tensor
is 0/0.  This contradicts the claim (and the spec), which require a non-NaN,
documented value; hence the code, not the claim, is at fault. -/
theorem criterion_all_ignored_is_nan :
    QWenPretrainingCriterionNet_forward (fun _ _ => 1) (-100) (fun _ _ => 0)
      (fun _ => -100) 2 = none := by decide

/-! ## RotaryEmbedding.update_cos_sin_cache: failure atomicity (C3) -/

/-- Ghost-instrumented view of the mutable fields of `RotaryEmbedding`
(modeling_network.py).  Each field records the parameters it was last
computed from: `inv_freq` is a function of the ntk alpha it was built with,
and each of the cos/sin tables is a function of the (table length, ntk
alpha) pair it was built from; the numeric payload itself is irrelevant to
mutual consistency of the cache. -/
structure RotaryCacheFields where
  inv_freq_alpha : ℚ
  seq_len_cached : Nat
  ntk_alpha_cached : ℚ
  cos_cached_params : Nat × ℚ
  sin_cached_params : Nat × ℚ
  deriving DecidableEq

/-- A rotary cache is mutually consistent when the inverse frequencies and
both trigonometric tables were built from exactly the cached length and
cached ntk alpha that later calls use to decide whether to rebuild. -/
def cache_consistent (st : RotaryCacheFields) : Prop :=
  st.inv_freq_alpha = st.ntk_alpha_cached ∧
  st.cos_cached_params = (st.seq_len_cached, st.ntk_alpha_cached) ∧
  st.sin_cached_params = (st.seq_len_cached, st.ntk_alpha_cached)

instance (st : RotaryCacheFields) : Decidable (cache_consistent st) := by
  unfold cache_consistent; exact inferInstance

/-- Embedding of `update_cos_sin_cache` (modeling_network.py) instrumented
with an abort point.  When the recompute triggers, the method assigns, in
source order, `self.inv_freq` (assignment 1), `self._seq_len_cached`
(assignment 2) and `self._ntk_alpha_cached` (assignment 3), then computes
the position/frequency/embedding tensors (where an allocation or kernel
failure would raise) and assigns `self.cos_cached` (assignment 4) and
`self.sin_cached` (assignment 5).  `steps` is the number of field
assignments completed before the failure; `steps = 5` is a successful run. -/
def update_cos_sin_cache_aborted (st : RotaryCacheFields) (max_seq_len offset : Nat)
    (ntk_alpha : ℚ) (steps : Nat) : RotaryCacheFields :=
  let seqlen := max_seq_len + offset
  if seqlen > st.seq_len_cached ∨ ntk_alpha ≠ st.ntk_alpha_cached then
    let new_len := max (2 * seqlen) 16
    let st1 := if 1 ≤ steps then { st with inv_freq_alpha := ntk_alpha } else st
    let st2 := if 2 ≤ steps then { st1 with seq_len_cached := new_len } else st1
    let st3 := if 3 ≤ steps then { st2 with ntk_alpha_cached := ntk_alpha } else st2
    let st4 := if 4 ≤ steps then { st3 with cos_cached_params := (new_len, ntk_alpha) } else st3
    if 5 ≤ steps then { st4 with sin_cached_params := (new_len, ntk_alpha) } else st4
  else st

/-- C3 counterexample: from a fully consistent cache (length 16, alpha 1), a
recompute for sequence length 20 that fails after the third assignment (the
cache metadata writes, before the cos/sin tables are rebuilt) leaves the
cache fields mutually inconsistent, contradicting the claim that a failing
recompute never leaves partially updated state. -/
theorem rotary_cache_update_not_atomic :
    ¬ cache_consistent (update_cos_sin_cache_aborted
        ⟨1, 16, 1, (16, 1), (16, 1)⟩ 20 0 1 3) := by decide

/-- C3 amended: the recompute writes the cache metadata (`inv_freq`,
`_seq_len_cached`, `_ntk_alpha_cached`) before rebuilding the cos/sin
tables, so it is not atomic: from any consistent cache, whenever the
recompute triggers, a failure after the metadata writes but before the
table writes (abort point 3) is observed as a mutually inconsistent cache;
only a failure before any write (abort point 0) or a completed run (abort
point 5) leaves a consistent cache. -/
theorem rotary_cache_update_metadata_first (st : RotaryCacheFields)
    (max_seq_len offset : Nat) (ntk_alpha : ℚ) (hcons : cache_consistent st)
    (htrig : max_seq_len + offset > st.seq_len_cached ∨ ntk_alpha ≠ st.ntk_alpha_cached) :
    update_cos_sin_cache_aborted st max_seq_len offset ntk_alpha 0 = st ∧
    cache_consistent (update_cos_sin_cache_aborted st max_seq_len offset ntk_alpha 5) ∧
    ¬ cache_consistent (update_cos_sin_cache_aborted st max_seq_len offset ntk_alpha 3) := by
  obtain ⟨hc1, hc2, hc3⟩ := hcons
  refine ⟨?_, ?_, ?_⟩
  · simp only [update_cos_sin_cache_aborted]
    rw [if_pos htrig]
    norm_num
  · simp only [update_cos_sin_cache_aborted]
    rw [if_pos htrig]
    norm_num
    exact ⟨rfl, rfl, rfl⟩
  · simp only [update_cos_sin_cache_aborted]
    rw [if_pos htrig]
    norm_num
    intro h1
    obtain ⟨-, h2, -⟩ := h1
    simp only at h2
    rw [hc2, Prod.mk.injEq] at h2
    obtain ⟨hlen, halpha⟩ := h2
    rcases htrig with h | h
    · simp only [Nat.max_def] at hlen
      split at hlen <;> omega
    · exact h halpha.symm

/-- C3 amended witness: concrete consistent cache (length 16, alpha 1) and a
triggering call for total sequence length 20. -/
theorem rotary_cache_update_metadata_first_witness :
    cache_consistent ⟨1, 16, 1, (16, 1), (16, 1)⟩ ∧
    ((20 : Nat) + 0 > 16 ∨ (1 : ℚ) ≠ 1) ∧
    (update_cos_sin_cache_aborted ⟨1, 16, 1, (16, 1), (16, 1)⟩ 20 0 1 0
        = ⟨1, 16, 1, (16, 1), (16, 1)⟩ ∧
     cache_consistent (update_cos_sin_cache_aborted ⟨1, 16, 1, (16, 1), (16, 1)⟩ 20 0 1 5) ∧
     ¬ cache_consistent (update_cos_sin_cache_aborted ⟨1, 16, 1, (16, 1), (16, 1)⟩ 20 0 1 3)) :=
  ⟨⟨rfl, rfl, rfl⟩, Or.inl (by norm_num),
    rotary_cache_update_metadata_first _ 20 0 1 ⟨rfl, rfl, rfl⟩ (Or.inl (by norm_num))⟩

/-! ## Gated FFN: QWenMLPNet and the fallback swiglu (C8) -/

/-- Embedding of the external `paddle.nn.functional.sigmoid`:
`sigmoid(x) = 1 / (1 + exp(-x))`. -/
noncomputable def sigmoid (x : ℝ) : ℝ := 1 / (1 + Real.exp (-x))

/-- Embedding of the external `paddle.nn.functional.silu`, the gating used by
the fallback `swiglu`; the spec pins `silu(x) = x * sigmoid(x)`. -/
noncomputable def silu (x : ℝ) : ℝ := x * sigmoid x

/-- Embedding of the fallback `swiglu` (modeling_network.py): with `y = None`
the single input of length `2 * ff_dim` is chunked into two halves and the
result is `silu(x1) * x2`; with an explicit second argument it is
`silu(x) * y`. -/
noncomputable def swiglu (ff_dim : Nat) (x : Nat → ℝ) (y : Option (Nat → ℝ)) : Nat → ℝ :=
  match y with
  | none => fun j => silu (x j) * x (ff_dim + j)
  | some yv => fun j => silu (x j) * yv j

/-- Embedding of a bias-free `nn.Linear` with weight `W` indexed
in-feature × out-feature: output `o` is the inner product of the input with
column `o` of `W`. -/
noncomputable def linear_no_bias (n_in : Nat) (W : Nat → Nat → ℝ) (x : Nat → ℝ) : Nat → ℝ :=
  fun o => ∑ i ∈ Finset.range n_in, x i * W i o

/-- Embedding of `QWenMLPNet.forward` (modeling_network.py), fused variant:
`c_proj(swiglu(gate_up_fused_proj(hidden_states)))`. -/
noncomputable def QWenMLPNet_forward_fused (hidden_size ff_dim : Nat)
    (W_fused W_c_proj : Nat → Nat → ℝ) (hidden_states : Nat → ℝ) : Nat → ℝ :=
  linear_no_bias ff_dim W_c_proj
    (swiglu ff_dim (linear_no_bias hidden_size W_fused hidden_states) none)

/-- Embedding of `QWenMLPNet.forward` (modeling_network.py), two-matrix
variant: `c_proj(swiglu(w2(hidden_states), w1(hidden_states)))` — the gate is
the `w2` projection and the value the `w1` projection. -/
noncomputable def QWenMLPNet_forward_two_matrix (hidden_size ff_dim : Nat)
    (W_w1 W_w2 W_c_proj : Nat → Nat → ℝ) (hidden_states : Nat → ℝ) : Nat → ℝ :=
  linear_no_bias ff_dim W_c_proj
    (swiglu ff_dim (linear_no_bias hidden_size W_w2 hidden_states)
      (some (linear_no_bias hidden_size W_w1 hidden_states)))

/-- C8: when the fused projection weight is the column-concatenation of the
gate projection (`w2`) and value projection (`w1`) weights, the fused
single-matrix path and the two-matrix path of the gated FFN produce exactly
equal outputs; both reduce to `down_proj(silu(gate) * value)`, and the
fallback gating is `silu(x) = x * sigmoid(x)`. -/
theorem qwen_mlp_fused_eq_two_matrix (hidden_size ff_dim : Nat)
    (W_fused W_w1 W_w2 W_c_proj : Nat → Nat → ℝ)
    (hW : ∀ i o, o < 2 * ff_dim →
      W_fused i o = if o < ff_dim then W_w2 i o else W_w1 i (o - ff_dim)) :
    ∀ hidden_states out_idx,
      QWenMLPNet_forward_fused hidden_size ff_dim W_fused W_c_proj hidden_states out_idx
        = QWenMLPNet_forward_two_matrix hidden_size ff_dim W_w1 W_w2 W_c_proj
            hidden_states out_idx ∧
      QWenMLPNet_forward_two_matrix hidden_size ff_dim W_w1 W_w2 W_c_proj
            hidden_states out_idx
        = ∑ j ∈ Finset.range ff_dim,
            (silu (linear_no_bias hidden_size W_w2 hidden_states j)
              * linear_no_bias hidden_size W_w1 hidden_states j) * W_c_proj j out_idx ∧
      ∀ x, silu x = x * sigmoid x := by
  intro hidden_states out_idx
  refine ⟨?_, rfl, fun _ => rfl⟩
  simp only [QWenMLPNet_forward_fused, QWenMLPNet_forward_two_matrix, swiglu, linear_no_bias]
  refine Finset.sum_congr rfl (fun j hj => ?_)
  rw [Finset.mem_range] at hj
  have hg : ∑ i ∈ Finset.range hidden_size, hidden_states i * W_fused i j
      = ∑ i ∈ Finset.range hidden_size, hidden_states i * W_w2 i j :=
    Finset.sum_congr rfl (fun i _ => by rw [hW i j (by omega), if_pos hj])
  have hv : ∑ i ∈ Finset.range hidden_size, hidden_states i * W_fused i (ff_dim + j)
      = ∑ i ∈ Finset.range hidden_size, hidden_states i * W_w1 i j :=
    Finset.sum_congr rfl (fun i _ => by
      rw [hW i (ff_dim + j) (by omega), if_neg (by omega)]
      congr 2
      omega)
  rw [hg, hv]

/-- Concrete value-projection weight for the C8 witness. -/
noncomputable def mlp_witness_w1 : Nat → Nat → ℝ := fun _ _ => 2

/-- Concrete gate-projection weight for the C8 witness. -/
noncomputable def mlp_witness_w2 : Nat → Nat → ℝ := fun _ _ => 3

/-- Concrete down-projection weight for the C8 witness. -/
noncomputable def mlp_witness_c_proj : Nat → Nat → ℝ := fun _ _ => 5

/-- Concrete fused weight for the C8 witness: the column-concatenation of the
gate weight and the value weight at ff dimension 1. -/
noncomputable def mlp_witness_fused : Nat → Nat → ℝ :=
  fun i o => if o < 1 then mlp_witness_w2 i o else mlp_witness_w1 i (o - 1)

/-- C8 witness: concrete instance with hidden size 2, ff dimension 1, the
fused weight literally the concatenation of the `w2` and `w1` weights. -/
theorem qwen_mlp_fused_eq_two_matrix_witness :
    (∀ i o, o < 2 * 1 →
      mlp_witness_fused i o = if o < 1 then mlp_witness_w2 i o else mlp_witness_w1 i (o - 1)) ∧
    (∀ hidden_states out_idx,
      QWenMLPNet_forward_fused 2 1 mlp_witness_fused mlp_witness_c_proj
          hidden_states out_idx
        = QWenMLPNet_forward_two_matrix 2 1 mlp_witness_w1 mlp_witness_w2 mlp_witness_c_proj
            hidden_states out_idx ∧
      QWenMLPNet_forward_two_matrix 2 1 mlp_witness_w1 mlp_witness_w2 mlp_witness_c_proj
            hidden_states out_idx
        = ∑ j ∈ Finset.range 1,
            (silu (linear_no_bias 2 mlp_witness_w2 hidden_states j)
              * linear_no_bias 2 mlp_witness_w1 hidden_states j) * mlp_witness_c_proj j out_idx ∧
      ∀ x, silu x = x * sigmoid x) :=
  ⟨fun _ _ _ => rfl,
    qwen_mlp_fused_eq_two_matrix 2 1 mlp_witness_fused mlp_witness_w1 mlp_witness_w2
      mlp_witness_c_proj (fun _ _ _ => rfl)⟩

/-! ## RotaryEmbedding: cache recompute condition, formulas and slicing (C5) -/

/-- Embedding of the inverse-frequency formula of `update_cos_sin_cache`
(modeling_network.py): entry `i` (for `i < dim / 2`) is
`1 / (base * ntk_alpha^(dim/(dim-2)))^((2*i)/dim)`; the source's
`paddle.arange(0, dim, 2) / dim` enumerates the exponents `2*i/dim`. -/
noncomputable def inv_freq_formula (base : ℚ) (dim : Nat) (ntk_alpha : ℚ) (i : Nat) : ℝ :=
  1 / (((base : ℝ) * (ntk_alpha : ℝ) ^ ((dim : ℝ) / ((dim : ℝ) - 2))) ^ ((2 * i : ℝ) / (dim : ℝ)))

/-- Embedding of the angle table of `update_cos_sin_cache`: entry (pos, j)
of `emb = concat([freqs, freqs], axis=-1)` with
`freqs = outer(arange(cached_len), inv_freq)`; the two concatenated halves
each have `dim / 2` columns. -/
noncomputable def emb_formula (base : ℚ) (dim : Nat) (ntk_alpha : ℚ) (pos j : Nat) : ℝ :=
  if j < dim / 2 then (pos : ℝ) * inv_freq_formula base dim ntk_alpha j
  else (pos : ℝ) * inv_freq_formula base dim ntk_alpha (j - dim / 2)

/-- Embedding of the `RotaryEmbedding` module state (modeling_network.py):
constructor parameters `dim` and `base` plus the mutable cache fields.  The
tables are total functions; the real table holds their values at positions
below `_seq_len_cached`. -/
structure RotaryEmbeddingState where
  dim : Nat
  base : ℚ
  inv_freq : Nat → ℝ
  seq_len_cached : Nat
  ntk_alpha_cached : ℚ
  cos_cached : Nat → Nat → ℝ
  sin_cached : Nat → Nat → ℝ

/-- Embedding of `RotaryEmbedding.update_cos_sin_cache`
(modeling_network.py): recompute exactly when `max_seq_len + offset`
exceeds the cached length or the ntk alpha differs (exact equality) from
the cached one; on recompute, rebuild `inv_freq` and the tables from the
formulas at the new alpha and set the cached length to
`max(2 * (max_seq_len + offset), 16)`. -/
noncomputable def update_cos_sin_cache (st : RotaryEmbeddingState)
    (max_seq_len offset : Nat) (ntk_alpha : ℚ) : RotaryEmbeddingState :=
  let seqlen := max_seq_len + offset
  if seqlen > st.seq_len_cached ∨ ntk_alpha ≠ st.ntk_alpha_cached then
    { st with
      inv_freq := inv_freq_formula st.base st.dim ntk_alpha
      seq_len_cached := max (2 * seqlen) 16
      ntk_alpha_cached := ntk_alpha
      cos_cached := fun pos j => Real.cos (emb_formula st.base st.dim ntk_alpha pos j)
      sin_cached := fun pos j => Real.sin (emb_formula st.base st.dim ntk_alpha pos j) }
  else st

/-- Embedding of `RotaryEmbedding.forward` (modeling_network.py): update the
cache, then return the new state together with the cos/sin tables sliced to
`[offset, offset + max_seq_len)` (the dtype cast is the identity in the
exact-real model). -/
noncomputable def RotaryEmbedding_forward (st : RotaryEmbeddingState)
    (max_seq_len offset : Nat) (ntk_alpha : ℚ) :
    RotaryEmbeddingState × (Nat → Nat → ℝ) × (Nat → Nat → ℝ) :=
  let st' := update_cos_sin_cache st max_seq_len offset ntk_alpha
  (st', fun s j => st'.cos_cached (offset + s) j, fun s j => st'.sin_cached (offset + s) j)

/-- A rotary module state is coherent when each cached field holds exactly
the value the recompute formulas give at the cached ntk alpha. -/
def rotary_state_coherent (st : RotaryEmbeddingState) : Prop :=
  st.inv_freq = inv_freq_formula st.base st.dim st.ntk_alpha_cached ∧
  st.cos_cached = (fun pos j => Real.cos (emb_formula st.base st.dim st.ntk_alpha_cached pos j)) ∧
  st.sin_cached = (fun pos j => Real.sin (emb_formula st.base st.dim st.ntk_alpha_cached pos j))

/-- C5: for every coherent rotary state and request (length L, offset o,
alpha): the tables are recomputed exactly when `L + o` exceeds the cached
length or alpha differs from the cached alpha (the state is returned
unchanged otherwise); on recompute the cached length becomes
`max(2*(L+o), 16)` and entry i of the inverse frequencies equals
`1/(base * alpha^(dim/(dim-2)))^(2i/dim)`; in all cases the new cached
alpha is the requested alpha, the cached length covers `L + o`, the state
stays coherent, and the returned cos/sin values are slices starting at
offset o of the tables computed at the requested alpha — never stale. -/
theorem rotary_cache_recompute_spec (st : RotaryEmbeddingState) (L o : Nat) (alpha : ℚ)
    (hco : rotary_state_coherent st) :
    ((¬ (L + o > st.seq_len_cached ∨ alpha ≠ st.ntk_alpha_cached)) →
      (RotaryEmbedding_forward st L o alpha).1 = st) ∧
    ((L + o > st.seq_len_cached ∨ alpha ≠ st.ntk_alpha_cached) →
      (RotaryEmbedding_forward st L o alpha).1.seq_len_cached = max (2 * (L + o)) 16 ∧
      (∀ i, i < st.dim / 2 → (RotaryEmbedding_forward st L o alpha).1.inv_freq i
        = 1 / (((st.base : ℝ) * (alpha : ℝ) ^ ((st.dim : ℝ) / ((st.dim : ℝ) - 2)))
            ^ ((2 * i : ℝ) / (st.dim : ℝ))))) ∧
    (RotaryEmbedding_forward st L o alpha).1.ntk_alpha_cached = alpha ∧
    L + o ≤ (RotaryEmbedding_forward st L o alpha).1.seq_len_cached ∧
    rotary_state_coherent (RotaryEmbedding_forward st L o alpha).1 ∧
    (∀ s j, (RotaryEmbedding_forward st L o alpha).2.1 s j
      = Real.cos (emb_formula st.base st.dim alpha (o + s) j)) ∧
    (∀ s j, (RotaryEmbedding_forward st L o alpha).2.2 s j
      = Real.sin (emb_formula st.base st.dim alpha (o + s) j)) := by
  obtain ⟨h1, h2, h3⟩ := hco
  by_cases htrig : (L + o > st.seq_len_cached ∨ alpha ≠ st.ntk_alpha_cached)
  · have hupd : (RotaryEmbedding_forward st L o alpha).1
        = { st with
            inv_freq := inv_freq_formula st.base st.dim alpha
            seq_len_cached := max (2 * (L + o)) 16
            ntk_alpha_cached := alpha
            cos_cached := fun pos j => Real.cos (emb_formula st.base st.dim alpha pos j)
            sin_cached := fun pos j => Real.sin (emb_formula st.base st.dim alpha pos j) } := by
      show update_cos_sin_cache st L o alpha = _
      unfold update_cos_sin_cache
      rw [if_pos htrig]
    refine ⟨fun h => absurd htrig h,
      fun _ => ⟨by rw [hupd], fun i _ => by rw [hupd]; rfl⟩,
      by rw [hupd], ?_, ?_, fun s j => ?_, fun s j => ?_⟩
    · rw [hupd]
      exact le_trans (by omega : L + o ≤ 2 * (L + o)) (le_max_left _ _)
    · rw [hupd]
      exact ⟨rfl, rfl, rfl⟩
    · show (RotaryEmbedding_forward st L o alpha).1.cos_cached (o + s) j = _
      rw [hupd]
    · show (RotaryEmbedding_forward st L o alpha).1.sin_cached (o + s) j = _
      rw [hupd]
  · have hupd : (RotaryEmbedding_forward st L o alpha).1 = st := by
      show update_cos_sin_cache st L o alpha = _
      unfold update_cos_sin_cache
      rw [if_neg htrig]
    push_neg at htrig
    obtain ⟨hlen, halpha⟩ := htrig
    refine ⟨fun _ => hupd, fun h => ?_, ?_, ?_, ?_, fun s j => ?_, fun s j => ?_⟩
    · rcases h with h | h
      · omega
      · exact absurd halpha h
    · rw [hupd, halpha]
    · rw [hupd]; omega
    · rw [hupd]; exact ⟨h1, h2, h3⟩
    · show (RotaryEmbedding_forward st L o alpha).1.cos_cached (o + s) j = _
      rw [hupd, h2, halpha]
    · show (RotaryEmbedding_forward st L o alpha).1.sin_cached (o + s) j = _
      rw [hupd, h3, halpha]

/-- Concrete coherent rotary state for the C5 witness: dim 4, base 10000,
empty cache built at alpha 1. -/
noncomputable def rotary_witness_state : RotaryEmbeddingState :=
  { dim := 4, base := 10000, inv_freq := inv_freq_formula 10000 4 1,
    seq_len_cached := 0, ntk_alpha_cached := 1,
    cos_cached := fun pos j => Real.cos (emb_formula 10000 4 1 pos j),
    sin_cached := fun pos j => Real.sin (emb_formula 10000 4 1 pos j) }

/-- C5 witness: concrete instance requesting length 5 at offset 0 and alpha
1 from the concrete coherent state. -/
theorem rotary_cache_recompute_spec_witness :
    rotary_state_coherent rotary_witness_state ∧
    (((¬ (5 + 0 > rotary_witness_state.seq_len_cached
          ∨ (1 : ℚ) ≠ rotary_witness_state.ntk_alpha_cached)) →
      (RotaryEmbedding_forward rotary_witness_state 5 0 1).1 = rotary_witness_state) ∧
    ((5 + 0 > rotary_witness_state.seq_len_cached
          ∨ (1 : ℚ) ≠ rotary_witness_state.ntk_alpha_cached) →
      (RotaryEmbedding_forward rotary_witness_state 5 0 1).1.seq_len_cached
          = max (2 * (5 + 0)) 16 ∧
      (∀ i, i < rotary_witness_state.dim / 2 →
        (RotaryEmbedding_forward rotary_witness_state 5 0 1).1.inv_freq i
        = 1 / (((rotary_witness_state.base : ℝ)
              * ((1 : ℚ) : ℝ) ^ ((rotary_witness_state.dim : ℝ)
                  / ((rotary_witness_state.dim : ℝ) - 2)))
            ^ ((2 * i : ℝ) / (rotary_witness_state.dim : ℝ))))) ∧
    (RotaryEmbedding_forward rotary_witness_state 5 0 1).1.ntk_alpha_cached = 1 ∧
    5 + 0 ≤ (RotaryEmbedding_forward rotary_witness_state 5 0 1).1.seq_len_cached ∧
    rotary_state_coherent (RotaryEmbedding_forward rotary_witness_state 5 0 1).1 ∧
    (∀ s j, (RotaryEmbedding_forward rotary_witness_state 5 0 1).2.1 s j
      = Real.cos (emb_formula rotary_witness_state.base rotary_witness_state.dim 1 (0 + s) j)) ∧
    (∀ s j, (RotaryEmbedding_forward rotary_witness_state 5 0 1).2.2 s j
      = Real.sin (emb_formula rotary_witness_state.base rotary_witness_state.dim 1 (0 + s) j))) :=
  ⟨⟨rfl, rfl, rfl⟩, rotary_cache_recompute_spec rotary_witness_state 5 0 1 ⟨rfl, rfl, rfl⟩⟩

/-! ## Dynamic NTK alpha selection (QWenAttentionNet.forward, C1) -/

/-- Embedding of the fresh-call NTK alpha computation in
`QWenAttentionNet.forward` (modeling_network.py):
`context_value = log2(kv_seq_len / seq_length) + 1` and
`ntk_alpha = max(2^ceil(context_value) - 1, 1)`.  Over the exact rationals
`ceil(log2(kv/L))` is `Int.clog 2 (kv/L)`, so `ceil(context_value)` is
`Int.clog 2 (kv/L) + 1`; the power is an integer zpow of 2 in ℚ. -/
def ntk_alpha_fresh (kv_seq_len seq_length : Nat) : ℚ :=
  max ((2 : ℚ) ^ (Int.clog 2 ((kv_seq_len : ℚ) / (seq_length : ℚ)) + 1) - 1) 1

/-- Embedding of the NTK memo of `QWenAttentionNet` (modeling_network.py):
the mutable `self._ntk_cached`, initialized to 1.0 in the constructor. -/
structure NtkCache where
  ntk_cached : ℚ

/-- Initial NTK memo (`self._ntk_cached = 1.0` in the constructor). -/
def init_ntk_cache : NtkCache := ⟨1⟩

/-- Embedding of the NTK alpha selection in `QWenAttentionNet.forward`
(modeling_network.py): `kv_seq_len` is the fresh input length plus the
cached length when `layer_past` is present; when dynamic NTK is enabled,
the call is fresh (`kv_seq_len == hidden_states.shape[1]`) and the module
is not training, a new alpha is computed and memoized; otherwise the memo
is returned unchanged. -/
def ntk_alpha_select (use_dynamic_ntk training : Bool) (seq_length fresh_len : Nat)
    (layer_past_len : Option Nat) (st : NtkCache) : ℚ × NtkCache :=
  let kv_seq_len := fresh_len + layer_past_len.getD 0
  if use_dynamic_ntk = true ∧ kv_seq_len = fresh_len ∧ training = false then
    let a := ntk_alpha_fresh kv_seq_len seq_length
    (a, ⟨a⟩)
  else (st.ntk_cached, st)

lemma int_clog_ratCast (b : ℕ) (hb : 1 < b) (q : ℚ) (hq : 0 < q) :
    Int.clog b ((q : ℝ)) = Int.clog b q := by
  have hqR : (0 : ℝ) < (q : ℝ) := by exact_mod_cast hq
  apply le_antisymm
  · rw [← Int.le_zpow_iff_clog_le hb hqR]
    have h := Int.self_le_zpow_clog (r := q) hb
    have h2 : ((q : ℚ) : ℝ) ≤ (((b : ℚ) ^ Int.clog b q : ℚ) : ℝ) := Rat.cast_le.mpr h
    rw [Rat.cast_zpow, Rat.cast_natCast] at h2
    exact h2
  · rw [← Int.le_zpow_iff_clog_le hb hq]
    have h := Int.self_le_zpow_clog (r := (q : ℝ)) hb
    have hb2 : ((b : ℝ)) = (((b : ℚ) : ℝ)) := (Rat.cast_natCast b).symm
    rw [hb2, ← Rat.cast_zpow] at h
    exact_mod_cast h

lemma ceil_log2_context (kv L : Nat) (hkv : 0 < kv) (hL : 0 < L) :
    ⌈Real.logb 2 ((kv : ℝ) / (L : ℝ)) + 1⌉ = Int.clog 2 ((kv : ℚ) / (L : ℚ)) + 1 := by
  have hq : (0 : ℚ) < (kv : ℚ) / (L : ℚ) := by positivity
  have hcast : (((kv : ℚ) / (L : ℚ) : ℚ) : ℝ) = (kv : ℝ) / (L : ℝ) := by push_cast; ring
  rw [Int.ceil_add_one, show (2 : ℝ) = ((2 : ℕ) : ℝ) by norm_num,
    Real.ceil_logb_natCast (by positivity), ← hcast, int_clog_ratCast 2 (by norm_num) _ hq]

/-- C1: in a forward call with dynamic NTK enabled, not in training mode,
and with the key/value sequence length equal to the fresh input length (no
cache in flight), the selected NTK scale equals
`max(1, 2^ceil(log2(kv_seq_len / seq_length) + 1) - 1)` and is stored in
the memo; in every other case the previously memoized alpha is returned
with the memo unchanged; in the fresh case the scale is exactly 1 whenever
`kv_seq_len <= seq_length`; and the memo is initialized to 1.0. -/
theorem qwen_dynamic_ntk_scale (use_dynamic_ntk training : Bool)
    (seq_length fresh_len : Nat) (layer_past_len : Option Nat) (st : NtkCache)
    (hL : 0 < seq_length) (hfresh : 0 < fresh_len) :
    (use_dynamic_ntk = true ∧ fresh_len + layer_past_len.getD 0 = fresh_len ∧ training = false →
      (ntk_alpha_select use_dynamic_ntk training seq_length fresh_len layer_past_len st).1
        = max 1 ((2 : ℚ)
            ^ ⌈Real.logb 2 (((fresh_len + layer_past_len.getD 0 : Nat) : ℝ) / (seq_length : ℝ)) + 1⌉
          - 1) ∧
      (ntk_alpha_select use_dynamic_ntk training seq_length fresh_len layer_past_len st).2.ntk_cached
        = (ntk_alpha_select use_dynamic_ntk training seq_length fresh_len layer_past_len st).1 ∧
      (fresh_len + layer_past_len.getD 0 ≤ seq_length →
        (ntk_alpha_select use_dynamic_ntk training seq_length fresh_len layer_past_len st).1 = 1)) ∧
    (¬ (use_dynamic_ntk = true ∧ fresh_len + layer_past_len.getD 0 = fresh_len ∧ training = false) →
      (ntk_alpha_select use_dynamic_ntk training seq_length fresh_len layer_past_len st).1
          = st.ntk_cached ∧
      (ntk_alpha_select use_dynamic_ntk training seq_length fresh_len layer_past_len st).2 = st) ∧
    init_ntk_cache.ntk_cached = 1 := by
  have hkv : 0 < fresh_len + layer_past_len.getD 0 := by omega
  refine ⟨fun hcond => ?_, fun hcond => ?_, rfl⟩
  · have hsel : ntk_alpha_select use_dynamic_ntk training seq_length fresh_len layer_past_len st
        = (ntk_alpha_fresh (fresh_len + layer_past_len.getD 0) seq_length,
           ⟨ntk_alpha_fresh (fresh_len + layer_past_len.getD 0) seq_length⟩) := by
      simp only [ntk_alpha_select]
      rw [if_pos hcond]
    rw [hsel]
    refine ⟨?_, rfl, fun hle => ?_⟩
    · show ntk_alpha_fresh (fresh_len + layer_past_len.getD 0) seq_length = _
      rw [ceil_log2_context _ _ hkv hL]
      exact max_comm _ _
    · show ntk_alpha_fresh (fresh_len + layer_past_len.getD 0) seq_length = 1
      have hc : Int.clog 2
          (((fresh_len + layer_past_len.getD 0 : Nat) : ℚ) / (seq_length : ℚ)) ≤ 0 := by
        rw [Int.clog_of_right_le_one 2
          (div_le_one_of_le₀ (by exact_mod_cast hle) (by positivity))]
        exact neg_nonpos.mpr (Int.natCast_nonneg _)
      have hpow : (2 : ℚ)
          ^ (Int.clog 2 (((fresh_len + layer_past_len.getD 0 : Nat) : ℚ) / (seq_length : ℚ)) + 1)
            ≤ (2 : ℚ) ^ (1 : ℤ) :=
        zpow_le_zpow_right₀ (by norm_num) (by omega)
      rw [zpow_one] at hpow
      unfold ntk_alpha_fresh
      exact max_eq_right (by linarith)
  · have hsel : ntk_alpha_select use_dynamic_ntk training seq_length fresh_len layer_past_len st
        = (st.ntk_cached, st) := by
      simp only [ntk_alpha_select]
      rw [if_neg hcond]
    rw [hsel]
    exact ⟨rfl, rfl⟩

/-- C1 witness: dynamic NTK on, not training, trained length 3, fresh
length 2, no cache in flight, fresh memo. -/
theorem qwen_dynamic_ntk_scale_witness :
    0 < 3 ∧ 0 < 2 ∧
    ((true = true ∧ 2 + (none : Option Nat).getD 0 = 2 ∧ false = false →
      (ntk_alpha_select true false 3 2 none init_ntk_cache).1
        = max 1 ((2 : ℚ)
            ^ ⌈Real.logb 2 (((2 + (none : Option Nat).getD 0 : Nat) : ℝ) / ((3 : Nat) : ℝ)) + 1⌉
          - 1) ∧
      (ntk_alpha_select true false 3 2 none init_ntk_cache).2.ntk_cached
        = (ntk_alpha_select true false 3 2 none init_ntk_cache).1 ∧
      (2 + (none : Option Nat).getD 0 ≤ 3 →
        (ntk_alpha_select true false 3 2 none init_ntk_cache).1 = 1)) ∧
    (¬ (true = true ∧ 2 + (none : Option Nat).getD 0 = 2 ∧ false = false) →
      (ntk_alpha_select true false 3 2 none init_ntk_cache).1 = init_ntk_cache.ntk_cached ∧
      (ntk_alpha_select true false 3 2 none init_ntk_cache).2 = init_ntk_cache) ∧
    init_ntk_cache.ntk_cached = 1) :=
  ⟨by decide, by decide,
    qwen_dynamic_ntk_scale true false 3 2 none init_ntk_cache (by decide) (by decide)⟩
